import Mathlib

/-!
Verification model of the Technobolt AI Shopper backend (`main.py`).

The embedding models, faithfully to the Python source:
  - `KeyManager` (round-robin credential rotation over env slots `GEMINI_CHAVE_1..7`),
  - `clean_json_response` (`text.replace("```json", "").replace("```", "").strip()`),
  - `json.loads` (a standard JSON tokenizer/parser; the `\u` string escape is not
    modelled, which only shrinks the set of inputs the parser accepts),
  - the four POST route handlers, parameterised by the outcome of the single external
    model call (`Except Unit (List Char)`: an exception, or the reply text).
    The handlers are total functions, which embeds the source's route-level
    `try/except Exception` (no exception escapes to the transport layer).
    Prompt construction is elided: no modelled observable depends on the prompt text.
Numbers are kept as their source lexemes (`Json.num` stores the raw digits), so no
floating-point semantics is needed; all comparisons in the claims are on structure,
strings and lexemes.
-/

/-- Backtick character, written by code point. -/
def btick : Char := Char.ofNat 96

/-- JSON whitespace accepted by `json.loads` between tokens: space, tab, LF, CR. -/
def isJsonWs (c : Char) : Bool :=
  (c == ' ') || (c == '\t') || (c == '\n') || (c == '\r')

/-- ASCII whitespace stripped by Python `str.strip`: JSON whitespace plus VT and FF. -/
def isPyWs (c : Char) : Bool :=
  isJsonWs c || (c == '\x0b') || (c == '\x0c')

/-- Characters that may continue a JSON number lexeme. -/
def isNumChar (c : Char) : Bool :=
  c.isDigit || (c == '.') || (c == '-') || (c == '+') || (c == 'e') || (c == 'E')

/-- Characters that may start a JSON number lexeme. -/
def isNumStart (c : Char) : Bool :=
  c.isDigit || (c == '-')

/-- Decoded character of a JSON string escape `\c` (the `\u` form is not modelled). -/
def escChar (c : Char) : Option Char :=
  match c with
  | '"' => some '"'
  | '\\' => some '\\'
  | '/' => some '/'
  | 'n' => some (Char.ofNat 10)
  | 't' => some (Char.ofNat 9)
  | 'r' => some (Char.ofNat 13)
  | 'b' => some (Char.ofNat 8)
  | 'f' => some (Char.ofNat 12)
  | _ => none

/-- Consume the integer part of a JSON number (after the optional sign). -/
def numIntPart : List Char → Option (List Char)
  | [] => none
  | c :: r =>
    if c == '0' then some r
    else if c.isDigit then some (r.dropWhile Char.isDigit)
    else none

/-- Consume the optional fraction part of a JSON number. -/
def numFracPart : List Char → Option (List Char)
  | [] => some []
  | c :: r =>
    if c == '.' then
      match r with
      | [] => none
      | d :: _ => if d.isDigit then some (r.dropWhile Char.isDigit) else none
    else some (c :: r)

/-- Consume the optional exponent part of a JSON number. -/
def numExpPart : List Char → Option (List Char)
  | [] => some []
  | c :: r =>
    if (c == 'e') || (c == 'E') then
      let r2 := match r with
        | s :: r3 => if (s == '+') || (s == '-') then r3 else s :: r3
        | [] => []
      match r2 with
      | [] => none
      | d :: _ => if d.isDigit then some (r2.dropWhile Char.isDigit) else none
    else some (c :: r)

/-- Validity of a JSON number lexeme per the RFC grammar used by `json.loads`. -/
def isValidNumber (l : List Char) : Bool :=
  let l1 := match l with
    | c :: r => if c == '-' then r else c :: r
    | [] => []
  match numIntPart l1 with
  | none => false
  | some r1 =>
    match numFracPart r1 with
    | none => false
    | some r2 =>
      match numExpPart r2 with
      | none => false
      | some r3 => r3.isEmpty

/-- Tokens produced by the JSON tokenizer. -/
inductive Token where
  | lbrace | rbrace | lbrack | rbrack | comma | colon
  | tstr (s : List Char)
  | tnum (lex : List Char)
  | ttrue | tfalse | tnull
deriving DecidableEq, Repr

/-- Tokenizer mode: between tokens, inside a string, inside a number, inside a word. -/
inductive TMode where
  | normal
  | instr (acc : List Char) (esc : Bool)
  | innum (acc : List Char)
  | inword (acc : List Char)
deriving Repr

/-- Tokenizer state: tokens emitted so far (reversed) and the current mode. -/
structure TState where
  toks : List Token
  mode : TMode
deriving Repr

/-- Close a number lexeme (accumulator is reversed), validating it. -/
def closeNum (acc : List Char) (toks : List Token) : Option (List Token) :=
  let lex := acc.reverse
  if isValidNumber lex then some (Token.tnum lex :: toks) else none

/-- Close a bare word, which must be one of the three JSON literals. -/
def closeWord (acc : List Char) (toks : List Token) : Option (List Token) :=
  let w := acc.reverse
  if w == ("true").data then some (Token.ttrue :: toks)
  else if w == ("false").data then some (Token.tfalse :: toks)
  else if w == ("null").data then some (Token.tnull :: toks)
  else none

/-- Process one character in `normal` mode. -/
def stepNormal (toks : List Token) (c : Char) : Option TState :=
  if isJsonWs c then some ⟨toks, TMode.normal⟩
  else if c == '{' then some ⟨Token.lbrace :: toks, TMode.normal⟩
  else if c == '}' then some ⟨Token.rbrace :: toks, TMode.normal⟩
  else if c == '[' then some ⟨Token.lbrack :: toks, TMode.normal⟩
  else if c == ']' then some ⟨Token.rbrack :: toks, TMode.normal⟩
  else if c == ',' then some ⟨Token.comma :: toks, TMode.normal⟩
  else if c == ':' then some ⟨Token.colon :: toks, TMode.normal⟩
  else if c == '"' then some ⟨toks, TMode.instr [] false⟩
  else if isNumStart c then some ⟨toks, TMode.innum [c]⟩
  else if c.isAlpha then some ⟨toks, TMode.inword [c]⟩
  else none

/-- Process one character in any mode. -/
def stepChar (st : TState) (c : Char) : Option TState :=
  match st.mode with
  | TMode.normal => stepNormal st.toks c
  | TMode.instr acc esc =>
    if esc then
      match escChar c with
      | some d => some ⟨st.toks, TMode.instr (d :: acc) false⟩
      | none => none
    else if c == '"' then some ⟨Token.tstr acc.reverse :: st.toks, TMode.normal⟩
    else if c == '\\' then some ⟨st.toks, TMode.instr acc true⟩
    else if c.toNat < 32 then none
    else some ⟨st.toks, TMode.instr (c :: acc) false⟩
  | TMode.innum acc =>
    if isNumChar c then some ⟨st.toks, TMode.innum (c :: acc)⟩
    else
      match closeNum acc st.toks with
      | some toks2 => stepNormal toks2 c
      | none => none
  | TMode.inword acc =>
    if c.isAlpha then some ⟨st.toks, TMode.inword (c :: acc)⟩
    else
      match closeWord acc st.toks with
      | some toks2 => stepNormal toks2 c
      | none => none

/-- Failure-propagating step over `Option TState`. -/
def stepO (os : Option TState) (c : Char) : Option TState :=
  match os with
  | none => none
  | some st => stepChar st c

/-- Finalize the tokenizer state at end of input. -/
def finalizeT (os : Option TState) : Option (List Token) :=
  match os with
  | none => none
  | some ⟨toks, TMode.normal⟩ => some toks.reverse
  | some ⟨_, TMode.instr _ _⟩ => none
  | some ⟨toks, TMode.innum acc⟩ => (closeNum acc toks).map List.reverse
  | some ⟨toks, TMode.inword acc⟩ => (closeWord acc toks).map List.reverse

/-- Initial tokenizer state. -/
def initTS : Option TState := some ⟨[], TMode.normal⟩

/-- JSON tokenizer: a left fold of `stepO` over the input characters. -/
def tokenize (s : List Char) : Option (List Token) :=
  finalizeT (s.foldl stepO initTS)

/-- JSON values. Number values keep their source lexeme, so no floating-point
semantics enters the model; strings and object keys are character lists. -/
inductive Json where
  | null
  | bool (b : Bool)
  | num (lex : List Char)
  | str (s : List Char)
  | arr (xs : List Json)
  | obj (ms : List (List Char × Json))

/-- Parsing mode for the fuelled recursive-descent token parser. -/
inductive PMode where
  | val
  | items (acc : List Json)
  | membs (acc : List (List Char × Json))

/-- Fuelled recursive-descent parser over the token list. In `val` mode it parses one
JSON value; `items`/`membs` parse the remainder of an array/object. -/
def parseF : Nat → PMode → List Token → Option (Json × List Token)
  | 0, _, _ => none
  | _ + 1, PMode.val, [] => none
  | f + 1, PMode.val, tk :: r =>
    match tk with
    | Token.tnull => some (Json.null, r)
    | Token.ttrue => some (Json.bool true, r)
    | Token.tfalse => some (Json.bool false, r)
    | Token.tnum lex => some (Json.num lex, r)
    | Token.tstr s => some (Json.str s, r)
    | Token.lbrack =>
      match r with
      | Token.rbrack :: r2 => some (Json.arr [], r2)
      | _ => parseF f (PMode.items []) r
    | Token.lbrace =>
      match r with
      | Token.rbrace :: r2 => some (Json.obj [], r2)
      | _ => parseF f (PMode.membs []) r
    | _ => none
  | f + 1, PMode.items acc, ts =>
    match parseF f PMode.val ts with
    | none => none
    | some (v, rest) =>
      match rest with
      | Token.comma :: r2 => parseF f (PMode.items (acc ++ [v])) r2
      | Token.rbrack :: r2 => some (Json.arr (acc ++ [v]), r2)
      | _ => none
  | f + 1, PMode.membs acc, ts =>
    match ts with
    | Token.tstr k :: Token.colon :: r =>
      match parseF f PMode.val r with
      | none => none
      | some (v, rest) =>
        match rest with
        | Token.comma :: r2 => parseF f (PMode.membs (acc ++ [(k, v)])) r2
        | Token.rbrace :: r2 => some (Json.obj (acc ++ [(k, v)]), r2)
        | _ => none
    | _ => none

/-- Model of Python `json.loads`: tokenize, parse one value, require no tokens left. -/
def loads (s : List Char) : Option Json :=
  match tokenize s with
  | none => none
  | some toks =>
    match parseF (2 * toks.length + 2) PMode.val toks with
    | some (v, []) => some v
    | _ => none

/-- Python `str.strip`: drop leading and trailing whitespace characters. -/
def pyStrip (s : List Char) : List Char :=
  ((s.dropWhile isPyWs).reverse.dropWhile isPyWs).reverse

/-- Fuelled left-to-right deletion of every non-overlapping occurrence of `pat`,
modelling Python `str.replace(pat, "")`. One unit of fuel is spent per step, and a
step consumes at least one character, so `fuel = s.length` always suffices; on fuel
exhaustion the remaining input is returned unchanged. -/
def removeAllF (pat : List Char) : Nat → List Char → List Char
  | _, [] => []
  | 0, s => s
  | f + 1, c :: rest =>
    if pat.isPrefixOf (c :: rest) then removeAllF pat f ((c :: rest).drop pat.length)
    else c :: removeAllF pat f rest

/-- Python `s.replace(pat, "")`. -/
def pyReplaceDel (pat s : List Char) : List Char :=
  removeAllF pat s.length s

/-- The opening fence marker `"```json"`. -/
def fjson : List Char := ("```json").data

/-- The fence marker `"```"`. -/
def fence3 : List Char := ("```").data

/-- Model of `clean_json_response` from `main.py`:
`text.replace("```json", "").replace("```", "").strip()`. -/
def clean_json_response (text : List Char) : List Char :=
  pyStrip (pyReplaceDel fence3 (pyReplaceDel fjson text))

/-- Rotation manager state: the Credential Set and the Rotation Cursor. The cursor
counts total fetches; the credential dispensed is at index `cursor % keys.length`,
which embeds `itertools.cycle`. -/
structure AppState where
  keys : List String
  cursor : Nat

/-- Credential discovery of `KeyManager.__init__`: collect the truthy values of env
slots `GEMINI_CHAVE_1 .. GEMINI_CHAVE_7` in slot order; if none, a single
placeholder `"dummy_key"` is substituted and startup proceeds. -/
def initKeys (env : Nat → Option String) : List String :=
  let ks := (List.range' 1 7).filterMap fun i =>
    match env i with
    | none => none
    | some s => if s = "" then none else some s
  if ks.isEmpty then ["dummy_key"] else ks

namespace KeyManager

/-- `KeyManager()` constructed from the environment, cursor at the start. -/
def init (env : Nat → Option String) : AppState :=
  ⟨initKeys env, 0⟩

end KeyManager

/-- `KeyManager.get_next_key`: return the credential at the cursor, advance by one. -/
def get_next_key (st : AppState) : String × AppState :=
  (st.keys.getD (st.cursor % st.keys.length) "", ⟨st.keys, st.cursor + 1⟩)

/-- `get_gemini_model`: fetches the next key (advancing the rotation cursor) and
configures the client; the configured model is opaque, so only the state matters. -/
def get_gemini_model (st : AppState) : String × AppState :=
  get_next_key st

/-- The sequence of credentials dispensed by `n` successive fetches. -/
def runFetches : AppState → Nat → List String
  | _, 0 => []
  | st, n + 1 => (get_next_key st).1 :: runFetches (get_next_key st).2 n

/-- Request body of `/analisar_compras` (`Produto` fields beyond the list structure
do not influence any modelled observable, but are kept for fidelity). -/
structure Produto where
  id : String
  nome : String
  preco_unitario : Float
  quantidade : Float

/-- Request body of `/analisar_compras`. -/
structure AnaliseRequest where
  produtos : List Produto
  orcamento_total : Float

/-- Request body of `/sugerir_receita`. -/
structure ReceitaRequest where
  ingredientes : List String
  tipo_refeicao : String

/-- Request body of `/sugerir_complementos_lista`. -/
structure ListaRequest where
  itens_lista : List String

/-- Request body of `/conferir_carrinho`. -/
structure ConferenciaRequest where
  lista_planejada : List String
  itens_carrinho : List String

/-- Result of one handler invocation: response body, rotation state after the
request, and the number of external model calls made. -/
structure HandlerResult where
  body : Json
  state : AppState
  calls : Nat

/-- Key string `"analise"`. -/
def kAnalise : List Char := ("analise").data

/-- Key string `"sugestoes"`. -/
def kSugestoes : List Char := ("sugestoes").data

/-- Key string `"faltantes"`. -/
def kFaltantes : List Char := ("faltantes").data

/-- Key string `"titulo"`. -/
def kTitulo : List Char := ("titulo").data

/-- Key string `"receita_texto"`. -/
def kReceita : List Char := ("receita_texto").data

/-- The `{"analise": []}` payload (both the empty-input result and the fallback). -/
def fallbackAnalise : Json := Json.obj [(kAnalise, Json.arr [])]

/-- The `{"sugestoes": []}` payload. -/
def fallbackSugestoes : Json := Json.obj [(kSugestoes, Json.arr [])]

/-- The `{"faltantes": []}` payload. -/
def fallbackFaltantes : Json := Json.obj [(kFaltantes, Json.arr [])]

/-- The fixed empty-cart recipe placeholder returned on empty ingredient lists. -/
def receitaVazia : Json :=
  Json.obj [(kTitulo, Json.str ("Ops").data),
            (kReceita, Json.str ("Adicione itens ao carrinho para eu criar uma receita.").data)]

/-- The fixed error-flavored recipe fallback returned from the `except` branch. -/
def receitaErro : Json :=
  Json.obj [(kTitulo, Json.str ("Erro na Cozinha").data),
            (kReceita, Json.str ("Tente novamente em alguns segundos.").data)]

/-- Handler of `POST /analisar_compras`, parameterised by the external call outcome.
Faithful to the source: empty product list short-circuits before any external work;
otherwise the key is fetched first, then the call; any exception (external failure
or `json.loads` failure) yields the `{"analise": []}` fallback. -/
def analisar_compras (st : AppState) (req : AnaliseRequest)
    (ext : Except Unit (List Char)) : HandlerResult :=
  if req.produtos.isEmpty then ⟨fallbackAnalise, st, 0⟩
  else
    let st2 := (get_gemini_model st).2
    match ext with
    | Except.error _ => ⟨fallbackAnalise, st2, 1⟩
    | Except.ok text =>
      match loads (clean_json_response text) with
      | some v => ⟨Json.obj [(kAnalise, v)], st2, 1⟩
      | none => ⟨fallbackAnalise, st2, 1⟩

/-- Handler of `POST /sugerir_receita`. On success the parsed value is returned
directly as the whole body; every exception path returns `receitaErro`. -/
def sugerir_receita (st : AppState) (req : ReceitaRequest)
    (ext : Except Unit (List Char)) : HandlerResult :=
  if req.ingredientes.isEmpty then ⟨receitaVazia, st, 0⟩
  else
    let st2 := (get_gemini_model st).2
    match ext with
    | Except.error _ => ⟨receitaErro, st2, 1⟩
    | Except.ok text =>
      match loads (clean_json_response text) with
      | some v => ⟨v, st2, 1⟩
      | none => ⟨receitaErro, st2, 1⟩

/-- Handler of `POST /sugerir_complementos_lista`. -/
def sugerir_complementos (st : AppState) (req : ListaRequest)
    (ext : Except Unit (List Char)) : HandlerResult :=
  if req.itens_lista.isEmpty then ⟨fallbackSugestoes, st, 0⟩
  else
    let st2 := (get_gemini_model st).2
    match ext with
    | Except.error _ => ⟨fallbackSugestoes, st2, 1⟩
    | Except.ok text =>
      match loads (clean_json_response text) with
      | some v => ⟨Json.obj [(kSugestoes, v)], st2, 1⟩
      | none => ⟨fallbackSugestoes, st2, 1⟩

/-- Handler of `POST /conferir_carrinho`; the short-circuit tests only the planned
list, not the cart list. -/
def conferir_carrinho (st : AppState) (req : ConferenciaRequest)
    (ext : Except Unit (List Char)) : HandlerResult :=
  if req.lista_planejada.isEmpty then ⟨fallbackFaltantes, st, 0⟩
  else
    let st2 := (get_gemini_model st).2
    match ext with
    | Except.error _ => ⟨fallbackFaltantes, st2, 1⟩
    | Except.ok text =>
      match loads (clean_json_response text) with
      | some v => ⟨Json.obj [(kFaltantes, v)], st2, 1⟩
      | none => ⟨fallbackFaltantes, st2, 1⟩

/-- Handler of `GET /`: status string and the size of the Credential Set. -/
def read_root (st : AppState) : String × Nat :=
  ("Technobolt Brain Online", st.keys.length)

/-- Lookup of a key in a JSON object (first binding wins, as in parse order). -/
def jLookup (k : List Char) : Json → Option Json
  | Json.obj ms => ms.lookup k
  | _ => none

/-- Project a JSON string value. -/
def jAsStr : Json → Option (List Char)
  | Json.str s => some s
  | _ => none

/-- The string content of field `k` of a JSON object, when it is a string. -/
def jStrField (k : List Char) (j : Json) : Option (List Char) :=
  match jLookup k j with
  | some (Json.str s) => some s
  | _ => none

/-- Declared shape of one analysis entry (spec section 6): an object with string
fields `id`, `alerta` (one of the four levels) and `feedback`. -/
def analiseEntryOk (j : Json) : Bool :=
  match j with
  | Json.obj ms =>
    (match ms.lookup (("id").data) with
     | some (Json.str _) => true
     | _ => false) &&
    (match ms.lookup (("alerta").data) with
     | some (Json.str a) =>
       (a == ("none").data) || (a == ("yellow").data) ||
       (a == ("orange").data) || (a == ("red").data)
     | _ => false) &&
    (match ms.lookup (("feedback").data) with
     | some (Json.str _) => true
     | _ => false)
  | _ => false

/-- Declared success shape of the analysis route (spec section 6):
`{analise: [entry, ...]}`. -/
def analiseShape (j : Json) : Bool :=
  match j with
  | Json.obj [(k, Json.arr entries)] => (k == kAnalise) && entries.all analiseEntryOk
  | _ => false

/-- Declared success shape of the recipe route (spec section 6): an object whose
`titulo` and `receita_texto` fields are strings. -/
def receitaShape (j : Json) : Bool :=
  match j with
  | Json.obj ms =>
    (match ms.lookup kTitulo with
     | some (Json.str _) => true
     | _ => false) &&
    (match ms.lookup kReceita with
     | some (Json.str _) => true
     | _ => false)
  | _ => false

/-- Concrete model reply used to probe the sanitizer: a well-formed JSON object of
the recipe shape whose `titulo` string contains the `fjson` fence marker. -/
def c8text : List Char :=
  '{' :: (("\"titulo\":\"x").data ++ fjson ++ ("y\",\"receita_texto\":\"z\"").data) ++ ['}']

/-! ### Sanitizer lemmas -/

theorem removeAllF_of_no_occ (pat : List Char) :
    ∀ (f : Nat) (s : List Char), ¬ (pat <:+: s) → removeAllF pat f s = s := by
  intro f s
  induction s generalizing f with
  | nil => intro _; cases f <;> rfl
  | cons c rest ih =>
    intro h
    match f with
    | 0 => rfl
    | f + 1 =>
      have hpre : pat.isPrefixOf (c :: rest) = false := by
        cases hp : pat.isPrefixOf (c :: rest)
        · rfl
        · exact absurd (List.IsPrefix.isInfix (List.isPrefixOf_iff_prefix.mp hp)) h
      simp only [removeAllF, hpre, Bool.false_eq_true, if_false]
      exact congrArg (c :: ·) (ih f fun hin => h (List.infix_cons hin))

theorem removeAllF_prefix_step (pat : List Char) (c : Char) (rest : List Char) (f : Nat)
    (h : pat.isPrefixOf (c :: rest) = true) :
    removeAllF pat (f + 1) (c :: rest) = removeAllF pat f ((c :: rest).drop pat.length) := by
  simp only [removeAllF, h, if_true]

theorem removeAllF_skip (pr : List Char) :
    ∀ (inner : List Char), (∀ c ∈ inner, c ≠ btick) → ∀ (tail : List Char) (f : Nat),
    removeAllF (btick :: pr) (inner.length + f) (inner ++ tail)
      = inner ++ removeAllF (btick :: pr) f tail := by
  intro inner
  induction inner with
  | nil => intro _ tail f; simp
  | cons c rest ih =>
    intro hin tail f
    have hc : ¬ (btick = c) := fun h => (hin c (by simp)) h.symm
    have hpre : (btick :: pr).isPrefixOf (c :: (rest ++ tail)) = false := by
      simp [List.isPrefixOf, hc]
    have hl : (c :: rest).length + f = (rest.length + f) + 1 := by
      simp only [List.length_cons]; omega
    rw [List.cons_append, hl]
    simp only [removeAllF, hpre, Bool.false_eq_true, if_false]
    exact congrArg (c :: ·) (ih (fun d hd => hin d (List.mem_cons_of_mem c hd)) tail f)

theorem not_fjson_infix_of_not_fence3 {t : List Char} (h : ¬ (fence3 <:+: t)) :
    ¬ (fjson <:+: t) := by
  intro hin
  exact h (List.IsInfix.trans (List.IsPrefix.isInfix (by decide : fence3 <+: fjson)) hin)

theorem clean_eq_strip (t : List Char) (h : ¬ (fence3 <:+: t)) :
    clean_json_response t = pyStrip t := by
  unfold clean_json_response pyReplaceDel
  rw [removeAllF_of_no_occ _ _ _ (not_fjson_infix_of_not_fence3 h),
      removeAllF_of_no_occ _ _ _ h]

theorem clean_wrapped (inner : List Char) (hin : ∀ c ∈ inner, c ≠ btick) :
    clean_json_response (fjson ++ inner ++ fence3) = pyStrip inner := by
  have hfj : fjson = btick :: ("``json").data := by decide
  have hf3 : fence3 = btick :: ("``").data := by decide
  have hlen : (fjson ++ inner ++ fence3).length = (inner.length + 9) + 1 := by
    simp only [List.length_append]
    have h1 : fjson.length = 7 := by decide
    have h2 : fence3.length = 3 := by decide
    omega
  have step1 : pyReplaceDel fjson (fjson ++ inner ++ fence3) = inner ++ fence3 := by
    unfold pyReplaceDel
    rw [hlen, List.append_assoc]
    rw [show fjson ++ (inner ++ fence3) = btick :: (("``json").data ++ (inner ++ fence3)) by
      rw [← List.cons_append, ← hfj]]
    rw [removeAllF_prefix_step _ _ _ _ (by
      rw [← List.cons_append, ← hfj]
      exact List.isPrefixOf_iff_prefix.mpr (List.prefix_append _ _))]
    rw [← List.cons_append, ← hfj]
    rw [show (fjson ++ (inner ++ fence3)).drop fjson.length = inner ++ fence3 from
      List.drop_left _ _]
    have h9 : inner.length + 9 = inner.length + 9 := rfl
    rw [hfj]
    rw [removeAllF_skip _ inner hin fence3 9]
    rw [← hfj, removeAllF_of_no_occ _ _ _ (by decide : ¬ (fjson <:+: fence3))]
  have step2 : pyReplaceDel fence3 (inner ++ fence3) = inner := by
    unfold pyReplaceDel
    have hl2 : (inner ++ fence3).length = inner.length + 3 := by
      simp only [List.length_append]
      have h2 : fence3.length = 3 := by decide
      omega
    rw [hl2, hf3, removeAllF_skip _ inner hin _ 3, ← hf3]
    rw [show removeAllF fence3 3 fence3 = [] from by decide]
    exact List.append_nil inner
  unfold clean_json_response
  rw [step1, step2]

/-! ### Tokenizer whitespace lemmas -/

theorem foldl_stepO_none : ∀ (l : List Char), List.foldl stepO none l = none := by
  intro l
  induction l with
  | nil => rfl
  | cons c r ih => rw [List.foldl_cons]; exact ih

theorem pyws_char {c : Char} (h : isPyWs c = true) :
    c = ' ' ∨ c = '\t' ∨ c = '\n' ∨ c = '\r' ∨ c = '\x0b' ∨ c = '\x0c' := by
  simp [isPyWs, isJsonWs] at h
  tauto

theorem finalizeT_foldl_pyws :
    ∀ (b : List Char), (∀ c ∈ b, isPyWs c = true) →
    ∀ (os : Option TState) (toks : List Token),
      finalizeT (List.foldl stepO os b) = some toks → finalizeT os = some toks := by
  intro b
  induction b with
  | nil => intro _ os toks h; exact h
  | cons c b2 ih =>
    intro hb os toks h
    rw [List.foldl_cons] at h
    have h2 := ih (fun d hd => hb d (List.mem_cons_of_mem c hd)) (stepO os c) toks h
    cases os with
    | none => simp [stepO, finalizeT] at h2
    | some st =>
      cases st with
      | mk tks mode =>
        have hc := pyws_char (hb c (List.mem_cons_self c b2))
        cases mode with
        | normal =>
          rcases hc with h6 | h6 | h6 | h6 | h6 | h6 <;> subst h6 <;>
            simp [stepO, stepChar, stepNormal, isJsonWs, isNumStart, finalizeT] at h2 ⊢ <;>
            try exact h2
        | instr acc esc =>
          cases esc <;>
            rcases hc with h6 | h6 | h6 | h6 | h6 | h6 <;> subst h6 <;>
            simp [stepO, stepChar, escChar, finalizeT] at h2
        | innum acc =>
          cases hcn : closeNum acc tks with
          | none =>
            rcases hc with h6 | h6 | h6 | h6 | h6 | h6 <;> subst h6 <;>
              simp [stepO, stepChar, isNumChar, Char.isDigit, hcn, finalizeT] at h2
          | some toks2 =>
            rcases hc with h6 | h6 | h6 | h6 | h6 | h6 <;> subst h6 <;>
              simp [stepO, stepChar, isNumChar, Char.isDigit, hcn, stepNormal, isJsonWs,
                isNumStart, finalizeT] at h2 ⊢ <;>
              try exact h2
        | inword acc =>
          cases hcw : closeWord acc tks with
          | none =>
            rcases hc with h6 | h6 | h6 | h6 | h6 | h6 <;> subst h6 <;>
              simp [stepO, stepChar, Char.isAlpha, Char.isUpper, Char.isLower, hcw,
                finalizeT] at h2
          | some toks2 =>
            rcases hc with h6 | h6 | h6 | h6 | h6 | h6 <;> subst h6 <;>
              simp [stepO, stepChar, Char.isAlpha, Char.isUpper, Char.isLower, hcw,
                stepNormal, isJsonWs, isNumStart, finalizeT] at h2 ⊢ <;>
              try exact h2

theorem foldl_stepO_pyws_init :
    ∀ (b : List Char), (∀ c ∈ b, isPyWs c = true) →
      List.foldl stepO initTS b = initTS ∨ List.foldl stepO initTS b = none := by
  intro b
  induction b with
  | nil => intro _; left; rfl
  | cons c b2 ih =>
    intro hb
    rcases pyws_char (hb c (List.mem_cons_self c b2)) with h6 | h6 | h6 | h6 | h6 | h6 <;>
      subst h6 <;> rw [List.foldl_cons]
    case inl =>
      exact ih fun d hd => hb d (List.mem_cons_of_mem _ hd)
    case inr.inl =>
      exact ih fun d hd => hb d (List.mem_cons_of_mem _ hd)
    case inr.inr.inl =>
      exact ih fun d hd => hb d (List.mem_cons_of_mem _ hd)
    case inr.inr.inr.inl =>
      exact ih fun d hd => hb d (List.mem_cons_of_mem _ hd)
    case inr.inr.inr.inr.inl =>
      right
      rw [show stepO initTS '\x0b' = none from rfl]
      exact foldl_stepO_none b2
    case inr.inr.inr.inr.inr =>
      right
      rw [show stepO initTS '\x0c' = none from rfl]
      exact foldl_stepO_none b2

theorem tokenize_dropWhile_pyWs (t : List Char) (toks : List Token)
    (h : tokenize t = some toks) : tokenize (t.dropWhile isPyWs) = some toks := by
  have hsplit := List.takeWhile_append_dropWhile isPyWs t
  unfold tokenize at h ⊢
  rw [← hsplit, List.foldl_append] at h
  rcases foldl_stepO_pyws_init (t.takeWhile isPyWs)
      (fun c hc => List.mem_takeWhile_imp hc) with he | he
  · rw [he] at h; exact h
  · rw [he, foldl_stepO_none] at h
    simp [finalizeT] at h

theorem tokenize_dropTrailing (a b : List Char) (hb : ∀ c ∈ b, isPyWs c = true)
    (toks : List Token) (h : tokenize (a ++ b) = some toks) : tokenize a = some toks := by
  unfold tokenize at h ⊢
  rw [List.foldl_append] at h
  exact finalizeT_foldl_pyws b hb _ toks h

theorem tokenize_pyStrip (t : List Char) (toks : List Token) (h : tokenize t = some toks) :
    tokenize (pyStrip t) = some toks := by
  have h1 := tokenize_dropWhile_pyWs t toks h
  have hu : t.dropWhile isPyWs
      = ((t.dropWhile isPyWs).reverse.dropWhile isPyWs).reverse
        ++ ((t.dropWhile isPyWs).reverse.takeWhile isPyWs).reverse := by
    rw [← List.reverse_append, List.takeWhile_append_dropWhile, List.reverse_reverse]
  rw [hu] at h1
  exact tokenize_dropTrailing _ _
    (fun c hc => List.mem_takeWhile_imp (List.mem_reverse.mp hc)) toks h1

theorem loads_pyStrip (t : List Char) (v : Json) (h : loads t = some v) :
    loads (pyStrip t) = some v := by
  unfold loads at h ⊢
  cases htk : tokenize t with
  | none => rw [htk] at h; exact absurd h (by simp)
  | some toks =>
    rw [htk] at h
    rw [tokenize_pyStrip t toks htk]
    exact h

theorem loads_clean_of_not_fence (t : List Char) (v : Json) (hf : ¬ (fence3 <:+: t))
    (h : loads t = some v) : loads (clean_json_response t) = some v := by
  rw [clean_eq_strip t hf]
  exact loads_pyStrip t v h

/-! ### Rotation manager lemmas -/

theorem runFetches_eq (st : AppState) :
    ∀ n, runFetches st n
      = (List.range n).map (fun i => st.keys.getD ((st.cursor + i) % st.keys.length) "") := by
  intro n
  induction n generalizing st with
  | zero => rfl
  | succ n ih =>
    rw [List.range_succ_eq_map, List.map_cons]
    show (get_next_key st).1 :: runFetches (get_next_key st).2 n = _
    have hhead : (get_next_key st).1 = st.keys.getD ((st.cursor + 0) % st.keys.length) "" := by
      simp [get_next_key]
    rw [hhead, ih]
    have htail : ∀ i ∈ List.range n,
        (get_next_key st).2.keys.getD (((get_next_key st).2.cursor + i)
            % (get_next_key st).2.keys.length) ""
          = st.keys.getD ((st.cursor + Nat.succ i) % st.keys.length) "" := by
      intro i _
      simp only [get_next_key]
      have : st.cursor + 1 + i = st.cursor + Nat.succ i := by omega
      rw [this]
    rw [List.map_congr_left htail, List.map_map]
    exact congrArg _ (List.map_congr_left fun i _ => rfl)

theorem countP_mod_range (K : Nat) (hK : 0 < K) (j : Nat) (hj : j < K) :
    ∀ N, (List.range N).countP (fun i => i % K == j)
      = N / K + (if j < N % K then 1 else 0) := by
  intro N
  induction N with
  | zero => simp
  | succ N ih =>
    rw [List.range_succ, List.countP_append, ih]
    simp only [List.countP_cons, List.countP_nil, Nat.zero_add]
    have hq := Nat.div_add_mod N K
    have hr : N % K < K := Nat.mod_lt _ hK
    by_cases hcase : N % K + 1 < K
    · have hN1 : N + 1 = K * (N / K) + (N % K + 1) := by omega
      have hdiv : (N + 1) / K = N / K := by
        rw [hN1, Nat.mul_add_div hK, Nat.div_eq_of_lt hcase]
        omega
      have hmod : (N + 1) % K = N % K + 1 := by
        rw [hN1, Nat.mul_add_mod, Nat.mod_eq_of_lt hcase]
      rw [hdiv, hmod]
      simp only [beq_iff_eq]
      split_ifs <;> omega
    · have hK1 : N % K + 1 = K := by omega
      have hN1 : N + 1 = K * (N / K) + (N % K + 1) := by omega
      have hdiv : (N + 1) / K = N / K + 1 := by
        rw [hN1, Nat.mul_add_div hK, hK1, Nat.div_self hK]
      have hmod : (N + 1) % K = 0 := by
        rw [hN1, Nat.mul_add_mod, hK1, Nat.mod_self]
      rw [hdiv, hmod]
      simp only [beq_iff_eq]
      split_ifs <;> omega

/-! ### Claim theorems -/

/-- C4: each of the four POST handlers short-circuits on trivially empty input
without invoking the external service: the whole result (payload, unchanged rotation
state, zero external calls) is independent of the external outcome `ext`. -/
theorem c4_empty_input_short_circuit :
    ∀ (st : AppState) (ext : Except Unit (List Char)) (o : Float) (tipo : String)
      (cart : List String),
    analisar_compras st ⟨[], o⟩ ext = ⟨fallbackAnalise, st, 0⟩ ∧
    sugerir_receita st ⟨[], tipo⟩ ext = ⟨receitaVazia, st, 0⟩ ∧
    sugerir_complementos st ⟨[]⟩ ext = ⟨fallbackSugestoes, st, 0⟩ ∧
    conferir_carrinho st ⟨[], cart⟩ ext = ⟨fallbackFaltantes, st, 0⟩ := by
  intro st ext o tipo cart
  exact ⟨rfl, rfl, rfl, rfl⟩

/-- C2: on any exception of the external model call (`Except.error`), every one of
the four handlers with non-trivial input returns its documented static fallback
payload; the handlers are total functions, so no exception escapes to the transport
layer. -/
theorem c2_exception_fallback :
    ∀ st : AppState,
    (∀ req : AnaliseRequest, req.produtos.isEmpty = false →
      (analisar_compras st req (Except.error ())).body = fallbackAnalise) ∧
    (∀ req : ReceitaRequest, req.ingredientes.isEmpty = false →
      (sugerir_receita st req (Except.error ())).body = receitaErro) ∧
    (∀ req : ListaRequest, req.itens_lista.isEmpty = false →
      (sugerir_complementos st req (Except.error ())).body = fallbackSugestoes) ∧
    (∀ req : ConferenciaRequest, req.lista_planejada.isEmpty = false →
      (conferir_carrinho st req (Except.error ())).body = fallbackFaltantes) := by
  intro st
  refine ⟨?_, ?_, ?_, ?_⟩ <;> intro req h <;>
    simp [analisar_compras, sugerir_receita, sugerir_complementos, conferir_carrinho, h]

/-- Witness for C2 at concrete states and requests. -/
theorem c2_witness :
    (analisar_compras ⟨["k1"], 0⟩ ⟨[⟨"1", "Arroz", 25.0, 1.0⟩], 100.0⟩
        (Except.error ())).body = fallbackAnalise ∧
    (sugerir_receita ⟨["k1"], 0⟩ ⟨["ovo"], "jantar"⟩ (Except.error ())).body = receitaErro ∧
    (sugerir_complementos ⟨["k1"], 0⟩ ⟨["café"]⟩ (Except.error ())).body
        = fallbackSugestoes ∧
    (conferir_carrinho ⟨["k1"], 0⟩ ⟨["arroz"], []⟩ (Except.error ())).body
        = fallbackFaltantes :=
  ⟨(c2_exception_fallback ⟨["k1"], 0⟩).1 _ rfl,
   (c2_exception_fallback ⟨["k1"], 0⟩).2.1 _ rfl,
   (c2_exception_fallback ⟨["k1"], 0⟩).2.2.1 _ rfl,
   (c2_exception_fallback ⟨["k1"], 0⟩).2.2.2 _ rfl⟩

/-- C9: for every request that passes the empty-input check, the rotation cursor
advances by exactly one and exactly one external call is consumed, whether the
external outcome is an exception or a reply text (the credential is fetched before
the call). -/
theorem c9_cursor_advances :
    ∀ (st : AppState) (ext : Except Unit (List Char)),
    (∀ req : AnaliseRequest, req.produtos.isEmpty = false →
      (analisar_compras st req ext).state.cursor = st.cursor + 1 ∧
      (analisar_compras st req ext).calls = 1) ∧
    (∀ req : ReceitaRequest, req.ingredientes.isEmpty = false →
      (sugerir_receita st req ext).state.cursor = st.cursor + 1 ∧
      (sugerir_receita st req ext).calls = 1) ∧
    (∀ req : ListaRequest, req.itens_lista.isEmpty = false →
      (sugerir_complementos st req ext).state.cursor = st.cursor + 1 ∧
      (sugerir_complementos st req ext).calls = 1) ∧
    (∀ req : ConferenciaRequest, req.lista_planejada.isEmpty = false →
      (conferir_carrinho st req ext).state.cursor = st.cursor + 1 ∧
      (conferir_carrinho st req ext).calls = 1) := by
  intro st ext
  refine ⟨?_, ?_, ?_, ?_⟩ <;> intro req h <;>
    rcases ext with e | text <;>
    simp [analisar_compras, sugerir_receita, sugerir_complementos, conferir_carrinho,
      get_gemini_model, get_next_key, h] <;>
    rcases hm : loads (clean_json_response text) with _ | v <;>
    simp [hm]

/-- Witness for C9 at a concrete state, request and both external outcomes. -/
theorem c9_witness :
    ((analisar_compras ⟨["k1"], 4⟩ ⟨[⟨"1", "Arroz", 25.0, 1.0⟩], 100.0⟩
        (Except.error ())).state.cursor = 4 + 1 ∧
     (analisar_compras ⟨["k1"], 4⟩ ⟨[⟨"1", "Arroz", 25.0, 1.0⟩], 100.0⟩
        (Except.error ())).calls = 1) ∧
    ((conferir_carrinho ⟨["k1"], 4⟩ ⟨["arroz"], []⟩
        (Except.ok (("oops").data))).state.cursor = 4 + 1 ∧
     (conferir_carrinho ⟨["k1"], 4⟩ ⟨["arroz"], []⟩
        (Except.ok (("oops").data))).calls = 1) :=
  ⟨(c9_cursor_advances ⟨["k1"], 4⟩ (Except.error ())).1 _ rfl,
   (c9_cursor_advances ⟨["k1"], 4⟩ (Except.ok (("oops").data))).2.2.2 _ rfl⟩

/-- C1 counterexample: with one ingredient and a successful external call whose
sanitized reply `"not json"` is not valid JSON, the handler returns the generic
static fallback `receitaErro`: its `receita_texto` is the fixed error text, not the
sanitized raw reply, refuting the claimed raw-text preservation. -/
theorem c1_counterexample :
    (sugerir_receita ⟨["k1"], 0⟩ ⟨["ovo"], "jantar"⟩
        (Except.ok (("not json").data))).body = receitaErro ∧
    clean_json_response (("not json").data) = ("not json").data ∧
    loads (("not json").data) = none ∧
    jStrField kReceita receitaErro = some (("Tente novamente em alguns segundos.").data) ∧
    jStrField kTitulo receitaErro = some (("Erro na Cozinha").data) ∧
    jStrField kReceita receitaErro ≠ some (("not json").data) := by
  refine ⟨rfl, rfl, rfl, rfl, rfl, by decide⟩

/-- C1 amended: when the external call succeeds but the sanitized reply is not
valid JSON, the recipe handler returns the same fixed error fallback
(`titulo = "Erro na Cozinha"`, `receita_texto = "Tente novamente em alguns
segundos."`) as on a service exception — the sanitized raw text is never used. -/
theorem c1_malformed_generic_fallback :
    ∀ (st : AppState) (req : ReceitaRequest) (text : List Char),
    req.ingredientes.isEmpty = false →
    loads (clean_json_response text) = none →
    (sugerir_receita st req (Except.ok text)).body = receitaErro := by
  intro st req text h hm
  simp [sugerir_receita, h, hm]

/-- Witness for the amended C1 at a concrete malformed reply. -/
theorem c1_witness :
    (["ovo"] : List String).isEmpty = false ∧
    loads (clean_json_response (("oops").data)) = none ∧
    (sugerir_receita ⟨["k1"], 7⟩ ⟨["ovo"], "almoço"⟩
        (Except.ok (("oops").data))).body = receitaErro :=
  ⟨rfl, rfl, c1_malformed_generic_fallback ⟨["k1"], 7⟩ ⟨["ovo"], "almoço"⟩ _ rfl rfl⟩

/-- C5 counterexample: the code has no shape validation. A successful external reply
`"42"` (valid JSON, wrong shape) yields the non-fallback response
`{analise: 42}`, which does not conform to the declared analysis shape; a reply
`"[1]"` on the recipe route yields a JSON list, not a `titulo`/`receita_texto`
object. -/
theorem c5_counterexample :
    (analisar_compras ⟨["k1"], 0⟩ ⟨[⟨"1", "Arroz", 25.0, 1.0⟩], 100.0⟩
        (Except.ok (("42").data))).body = Json.obj [(kAnalise, Json.num (("42").data))] ∧
    analiseShape (Json.obj [(kAnalise, Json.num (("42").data))]) = false ∧
    Json.obj [(kAnalise, Json.num (("42").data))] ≠ fallbackAnalise ∧
    (sugerir_receita ⟨["k1"], 0⟩ ⟨["ovo"], "jantar"⟩
        (Except.ok (("[1]").data))).body = Json.arr [Json.num (("1").data)] ∧
    receitaShape (Json.arr [Json.num (("1").data)]) = false := by
  refine ⟨rfl, rfl, ?_, rfl, rfl⟩
  intro heq
  simp [fallbackAnalise] at heq

/-- C5 amended: a successful (non-fallback) response merely embeds whatever JSON
value the sanitized reply parsed to — the analysis route wraps it as
`{analise: v}` and the recipe route returns it verbatim — with no conformance
check against the route's declared shape. -/
theorem c5_no_shape_validation :
    ∀ (st : AppState) (text : List Char) (v : Json),
    loads (clean_json_response text) = some v →
    (∀ req : AnaliseRequest, req.produtos.isEmpty = false →
      (analisar_compras st req (Except.ok text)).body = Json.obj [(kAnalise, v)]) ∧
    (∀ req : ReceitaRequest, req.ingredientes.isEmpty = false →
      (sugerir_receita st req (Except.ok text)).body = v) := by
  intro st text v hm
  exact ⟨fun req h => by simp [analisar_compras, h, hm],
         fun req h => by simp [sugerir_receita, h, hm]⟩

/-- Witness for the amended C5 at a concrete reply `"{}"`. -/
theorem c5_witness :
    loads (clean_json_response (("{}").data)) = some (Json.obj []) ∧
    ([⟨"1", "Arroz", 25.0, 1.0⟩] : List Produto).isEmpty = false ∧
    (analisar_compras ⟨["k1"], 0⟩ ⟨[⟨"1", "Arroz", 25.0, 1.0⟩], 100.0⟩
        (Except.ok (("{}").data))).body = Json.obj [(kAnalise, Json.obj [])] :=
  ⟨rfl, rfl,
   (c5_no_shape_validation ⟨["k1"], 0⟩ (("{}").data) (Json.obj []) rfl).1
     ⟨[⟨"1", "Arroz", 25.0, 1.0⟩], 100.0⟩ rfl⟩

theorem runFetches_single (k : String) (c n : Nat) :
    runFetches ⟨[k], c⟩ n = List.replicate n k := by
  induction n generalizing c with
  | zero => rfl
  | succ n ih =>
    show (get_next_key ⟨[k], c⟩).1 :: runFetches (get_next_key ⟨[k], c⟩).2 n = _
    simp [get_next_key, Nat.mod_one, List.replicate_succ, ih]

theorem initKeys_all_empty (env : Nat → Option String)
    (henv : ∀ i, 1 ≤ i → i ≤ 7 → env i = none ∨ env i = some "") :
    initKeys env = ["dummy_key"] := by
  have hnil : ((List.range' 1 7).filterMap fun i =>
      match env i with
      | none => none
      | some s => if s = "" then none else some s) = [] := by
    rw [List.filterMap_eq_nil_iff]
    intro a ha
    have hbounds : 1 ≤ a ∧ a ≤ 7 := by
      rw [List.mem_range'] at ha
      obtain ⟨i, hi, hai⟩ := ha
      omega
    rcases henv a hbounds.1 hbounds.2 with h | h <;> simp [h]
  simp [initKeys, hnil]

/-- C6: with no configured credential slot holding a non-empty value, manager
construction is a total function (never raises) and yields the single placeholder
credential, so every subsequent fetch — any number of them — still returns a value
(the placeholder). -/
theorem c6_no_keys_placeholder :
    ∀ env : Nat → Option String,
    (∀ i, 1 ≤ i → i ≤ 7 → env i = none ∨ env i = some "") →
    initKeys env = ["dummy_key"] ∧
    ∀ n, runFetches (KeyManager.init env) n = List.replicate n "dummy_key" := by
  intro env henv
  have hkeys := initKeys_all_empty env henv
  refine ⟨hkeys, ?_⟩
  intro n
  have hst : KeyManager.init env = ⟨["dummy_key"], 0⟩ := by
    simp [KeyManager.init, hkeys]
  rw [hst, runFetches_single]

/-- Witness for C6 at the empty environment. -/
theorem c6_witness :
    (∀ i, 1 ≤ i → i ≤ 7 → (fun _ => (none : Option String)) i = none ∨
      (fun _ => (none : Option String)) i = some "") ∧
    initKeys (fun _ => none) = ["dummy_key"] ∧
    runFetches (KeyManager.init (fun _ => none)) 3
      = List.replicate 3 "dummy_key" :=
  ⟨fun _ _ _ => Or.inl rfl,
   (c6_no_keys_placeholder (fun _ => none) (fun _ _ _ => Or.inl rfl)).1,
   (c6_no_keys_placeholder (fun _ => none) (fun _ _ _ => Or.inl rfl)).2 3⟩

/-- C10: `GET /` reports `keys_active` equal to the size of the Credential Set; with
zero configured credentials it reports `1` (the placeholder is counted), so the
degraded state is indistinguishable from having one real credential. -/
theorem c10_keys_active :
    (∀ st : AppState, (read_root st).2 = st.keys.length) ∧
    (∀ env : Nat → Option String,
      (∀ i, 1 ≤ i → i ≤ 7 → env i = none ∨ env i = some "") →
      read_root (KeyManager.init env) = ("Technobolt Brain Online", 1)) ∧
    (∀ env1 env2 : Nat → Option String,
      (∀ i, 1 ≤ i → i ≤ 7 → env1 i = none ∨ env1 i = some "") →
      (initKeys env2).length = 1 →
      read_root (KeyManager.init env1) = read_root (KeyManager.init env2)) := by
  refine ⟨fun st => rfl, ?_, ?_⟩
  · intro env henv
    simp [read_root, KeyManager.init, initKeys_all_empty env henv]
  · intro env1 env2 h1 h2
    simp [read_root, KeyManager.init, initKeys_all_empty env1 h1, h2]

/-- Witness for C10: empty environment versus an environment with one real key. -/
theorem c10_witness :
    read_root (KeyManager.init (fun _ => none)) = ("Technobolt Brain Online", 1) ∧
    (initKeys (fun i => if i = 3 then some "real" else none)).length = 1 ∧
    read_root (KeyManager.init (fun _ => none))
      = read_root (KeyManager.init (fun i => if i = 3 then some "real" else none)) :=
  ⟨(c10_keys_active.2.1 (fun _ => none) (fun _ _ _ => Or.inl rfl)),
   rfl,
   (c10_keys_active.2.2 (fun _ => none) (fun i => if i = 3 then some "real" else none)
     (fun _ _ _ => Or.inl rfl) rfl)⟩

/-- C3: for `N` fetches from a Credential Set of size `K = keys.length` starting at
cursor 0: every fetch `i` returns the credential at slot `i % K`; the sequence is
periodic with period `K`; the number of fetches served by each slot `j` is
`⌊N/K⌋` or `⌈N/K⌉` (the latter written `(N + K - 1) / K`); and each single fetch
returns the credential at the current cursor and advances the cursor by one
(the dispensed slot being taken modulo `K`). -/
theorem c3_round_robin :
    ∀ keys : List String, keys ≠ [] → ∀ N : Nat,
    (runFetches ⟨keys, 0⟩ N).length = N ∧
    (∀ i : Nat, i < N →
      (runFetches ⟨keys, 0⟩ N).get? i = some (keys.getD (i % keys.length) "")) ∧
    (∀ i : Nat, i + keys.length < N →
      (runFetches ⟨keys, 0⟩ N).get? (i + keys.length) = (runFetches ⟨keys, 0⟩ N).get? i) ∧
    (∀ j : Nat, j < keys.length →
      (List.range N).countP (fun i => i % keys.length == j) = N / keys.length ∨
      (List.range N).countP (fun i => i % keys.length == j)
        = (N + keys.length - 1) / keys.length) ∧
    (∀ st : AppState, get_next_key st
      = (st.keys.getD (st.cursor % st.keys.length) "", ⟨st.keys, st.cursor + 1⟩)) := by
  intro keys hne N
  have hK : 0 < keys.length := List.length_pos.mpr hne
  have hget : ∀ i : Nat, i < N →
      (runFetches ⟨keys, 0⟩ N).get? i = some (keys.getD (i % keys.length) "") := by
    intro i hi
    rw [runFetches_eq, List.get?_map, List.get?_range hi]
    simp
  refine ⟨?_, hget, ?_, ?_, fun st => rfl⟩
  · rw [runFetches_eq]
    simp
  · intro i hi
    have hi2 : i < N := by omega
    rw [hget _ hi, hget _ hi2, Nat.add_mod_right]
  · intro j hj
    rw [countP_mod_range keys.length hK j hj N]
    by_cases hjr : j < N % keys.length
    · right
      have hrK : N % keys.length < keys.length := Nat.mod_lt _ hK
      have hq := Nat.div_add_mod N keys.length
      have hmul : keys.length * (N / keys.length + 1)
          = keys.length * (N / keys.length) + keys.length := by ring
      have hsplit : N + keys.length - 1
          = keys.length * (N / keys.length + 1) + (N % keys.length - 1) := by
        rw [hmul]
        revert hq
        generalize keys.length * (N / keys.length) = m
        intro hq
        omega
      rw [hsplit, Nat.mul_add_div hK,
          Nat.div_eq_of_lt (by omega : N % keys.length - 1 < keys.length)]
      simp [hjr]
    · left
      simp [hjr]

/-- Witness for C3 with two credentials and five fetches. -/
theorem c3_witness :
    (["a", "b"] : List String) ≠ [] ∧
    ((runFetches ⟨["a", "b"], 0⟩ 5).length = 5 ∧
     (∀ i : Nat, i < 5 →
       (runFetches ⟨["a", "b"], 0⟩ 5).get? i
         = some ((["a", "b"] : List String).getD (i % (["a", "b"] : List String).length) "")) ∧
     (∀ i : Nat, i + (["a", "b"] : List String).length < 5 →
       (runFetches ⟨["a", "b"], 0⟩ 5).get? (i + (["a", "b"] : List String).length)
         = (runFetches ⟨["a", "b"], 0⟩ 5).get? i) ∧
     (∀ j : Nat, j < (["a", "b"] : List String).length →
       (List.range 5).countP (fun i => i % (["a", "b"] : List String).length == j)
           = 5 / (["a", "b"] : List String).length ∨
       (List.range 5).countP (fun i => i % (["a", "b"] : List String).length == j)
           = (5 + (["a", "b"] : List String).length - 1) / (["a", "b"] : List String).length) ∧
     (∀ st : AppState, get_next_key st
       = (st.keys.getD (st.cursor % st.keys.length) "", ⟨st.keys, st.cursor + 1⟩))) :=
  ⟨by simp, c3_round_robin ["a", "b"] (by simp) 5⟩

/-- C7 counterexample: wrapping the JSON text `"\n{}\n"` in the fence markers and
sanitizing does not return exactly the inner content: the surrounding whitespace of
the inner content is also trimmed (`"{}"` is returned, not `"\n{}\n"`). -/
theorem c7_counterexample :
    clean_json_response (fjson ++ ("\n{}\n").data ++ fence3) = ("{}").data ∧
    ("{}").data ≠ ("\n{}\n").data ∧
    loads (("\n{}\n").data) = some (Json.obj []) ∧
    ¬ (fence3 <:+: ("\n{}\n").data) := by
  refine ⟨rfl, by decide, rfl, by decide⟩

/-- C7 amended: a text containing no fence marker is returned unchanged except for
the whitespace trim, and a fence-wrapped inner content (containing no backtick) is
returned exactly up to the same whitespace trim of the inner content. -/
theorem c7_sanitizer :
    (∀ t : List Char, ¬ (fence3 <:+: t) → clean_json_response t = pyStrip t) ∧
    (∀ inner : List Char, (∀ c ∈ inner, c ≠ btick) →
      clean_json_response (fjson ++ inner ++ fence3) = pyStrip inner) :=
  ⟨clean_eq_strip, clean_wrapped⟩

/-- Witness for C7 on a clean text and on a fence-wrapped text. -/
theorem c7_witness :
    (¬ (fence3 <:+: ("  [1, 2]  ").data)) ∧
    clean_json_response (("  [1, 2]  ").data) = pyStrip (("  [1, 2]  ").data) ∧
    (∀ c ∈ ("[1]").data, c ≠ btick) ∧
    clean_json_response (fjson ++ ("[1]").data ++ fence3) = pyStrip (("[1]").data) :=
  ⟨by decide, c7_sanitizer.1 _ (by decide), by decide, c7_sanitizer.2 _ (by decide)⟩

/-- C8 counterexample: `c8text` is well-formed JSON of the declared recipe shape,
yet sanitize-then-parse yields a different structured value than parsing directly —
the fence marker inside the `titulo` string literal is deleted by the sanitizer. -/
theorem c8_counterexample :
    loads c8text
      = some (Json.obj [(kTitulo, Json.str (("x").data ++ fjson ++ ("y").data)),
          (kReceita, Json.str (("z").data))]) ∧
    receitaShape (Json.obj [(kTitulo, Json.str (("x").data ++ fjson ++ ("y").data)),
        (kReceita, Json.str (("z").data))]) = true ∧
    loads (clean_json_response c8text)
      = some (Json.obj [(kTitulo, Json.str (("xy").data)),
          (kReceita, Json.str (("z").data))]) ∧
    jStrField kTitulo (Json.obj [(kTitulo, Json.str (("x").data ++ fjson ++ ("y").data)),
        (kReceita, Json.str (("z").data))])
      ≠ jStrField kTitulo (Json.obj [(kTitulo, Json.str (("xy").data)),
          (kReceita, Json.str (("z").data))]) := by
  refine ⟨rfl, rfl, rfl, by decide⟩

/-- C8 amended: for any text containing no fence-marker substring, if it parses as
JSON then sanitizing first parses to exactly the same structured value; texts whose
string literals contain fence markers are changed by sanitization. -/
theorem c8_round_trip :
    ∀ (t : List Char) (v : Json), ¬ (fence3 <:+: t) →
    loads t = some v → loads (clean_json_response t) = some v :=
  loads_clean_of_not_fence

/-- Witness for the amended C8 on a concrete array text. -/
theorem c8_witness :
    (¬ (fence3 <:+: ("[1]").data)) ∧
    loads (("[1]").data) = some (Json.arr [Json.num (("1").data)]) ∧
    loads (clean_json_response (("[1]").data)) = some (Json.arr [Json.num (("1").data)]) :=
  ⟨by decide, rfl, c8_round_trip (("[1]").data) (Json.arr [Json.num (("1").data)])
    (by decide) rfl⟩
